import Mathlib

/-!
Shallow embedding of the go-i2c driver (src/i2c.go).

The underlying file descriptor (`rc` of the Go `I2C` struct) is modelled as a
`Device` oracle giving the outcome of each raw write (`os.File.Write`) and each
raw read (`os.File.Read`) on the bus.  Every register operation additionally
returns the ordered trace of bus events it issued, so that protocol-shape
claims (which bytes hit the wire, in which order) can be stated.

Go fixed-width integers are modelled as `Nat` (for `byte`/`uint16`) and `Int`
(for `int16`) with explicit wrap-around (`% 65536`, `i16wrap`) exactly where
the Go operation can overflow.  Logging calls have no semantic effect and are
omitted.
-/

/-- Opaque I/O error values (Go `error`); only identity matters. -/
abbrev IOError := Nat

/-- One raw transaction on the bus file descriptor. -/
inductive BusEvent where
  | write : List Nat → BusEvent
  | read : Nat → BusEvent
deriving DecidableEq

/-- Oracle for the bus device node: result of `rc.Write buf` and of
`rc.Read` into a buffer of a given length (final buffer contents and count). -/
structure Device where
  onWrite : List Nat → Except IOError Nat
  onRead : Nat → Except IOError (List Nat × Nat)

/-- Result of a Go call that may also panic (used for `make([]byte, n)`
with a negative length, which panics at run time). -/
inductive Outcome (α : Type) where
  | ok : α → Outcome α
  | err : IOError → Outcome α
  | panic : Outcome α
deriving DecidableEq

/-- Go `func (v *I2C) WriteBytes(buf []byte) (int, error)`:
log, then `v.rc.Write(buf)`. -/
def WriteBytes (d : Device) (buf : List Nat) : Except IOError Nat × List BusEvent :=
  (d.onWrite buf, [BusEvent.write buf])

/-- Go `func (v *I2C) ReadBytes(buf []byte) (int, error)`:
`v.rc.Read(buf)` into a buffer of length `n`, then log. -/
def ReadBytes (d : Device) (n : Nat) : Except IOError (List Nat × Nat) × List BusEvent :=
  (d.onRead n, [BusEvent.read n])

/-- Go `func (v *I2C) ReadRegBytes(reg byte, n int) ([]byte, int, error)`:
write `[reg]`; on success `make([]byte, n)` (panics when `n < 0`) and read. -/
def ReadRegBytes (d : Device) (reg : Nat) (n : Int) :
    Outcome (List Nat × Nat) × List BusEvent :=
  match WriteBytes d [reg] with
  | (Except.error e, t1) => (Outcome.err e, t1)
  | (Except.ok _, t1) =>
    if n < 0 then (Outcome.panic, t1)
    else
      match ReadBytes d n.toNat with
      | (Except.error e, t2) => (Outcome.err e, t1 ++ t2)
      | (Except.ok (buf, c), t2) => (Outcome.ok (buf, c), t1 ++ t2)

/-- Go `func (v *I2C) ReadRegU8(reg byte) (byte, error)`:
write `[reg]`; read 1 byte; return `buf[0]`. -/
def ReadRegU8 (d : Device) (reg : Nat) : Except IOError Nat × List BusEvent :=
  match WriteBytes d [reg] with
  | (Except.error e, t1) => (Except.error e, t1)
  | (Except.ok _, t1) =>
    match ReadBytes d 1 with
    | (Except.error e, t2) => (Except.error e, t1 ++ t2)
    | (Except.ok (buf, _), t2) => (Except.ok (buf.getD 0 0), t1 ++ t2)

/-- Go `func (v *I2C) WriteRegU8(reg byte, value byte) error`:
write the 2-byte buffer `[reg, value]`. -/
def WriteRegU8 (d : Device) (reg value : Nat) : Except IOError Unit × List BusEvent :=
  match WriteBytes d [reg, value] with
  | (Except.error e, t) => (Except.error e, t)
  | (Except.ok _, t) => (Except.ok (), t)

/-- Go `func (v *I2C) ReadRegU16BE(reg byte) (uint16, error)`:
write `[reg]`; read 2 bytes; `w := uint16(buf[0])<<8 + uint16(buf[1])`
(uint16 arithmetic, hence the `% 65536` wraps). -/
def ReadRegU16BE (d : Device) (reg : Nat) : Except IOError Nat × List BusEvent :=
  match WriteBytes d [reg] with
  | (Except.error e, t1) => (Except.error e, t1)
  | (Except.ok _, t1) =>
    match ReadBytes d 2 with
    | (Except.error e, t2) => (Except.error e, t1 ++ t2)
    | (Except.ok (buf, _), t2) =>
      (Except.ok ((((buf.getD 0 0) <<< 8) % 65536 + buf.getD 1 0) % 65536), t1 ++ t2)

/-- Byte exchange used by `ReadRegU16LE`: Go `w = (w&0xFF)<<8 + w>>8`
on `uint16` (logical right shift, wrap-around addition). -/
def swapU16 (w : Nat) : Nat :=
  (((w &&& 0xFF) <<< 8) % 65536 + (w >>> 8)) % 65536

/-- Go `func (v *I2C) ReadRegU16LE(reg byte) (uint16, error)`:
call `ReadRegU16BE`, then exchange bytes. -/
def ReadRegU16LE (d : Device) (reg : Nat) : Except IOError Nat × List BusEvent :=
  match ReadRegU16BE d reg with
  | (Except.error e, t) => (Except.error e, t)
  | (Except.ok w, t) => (Except.ok (swapU16 w), t)

/-- Wrap an integer into the `int16` range `[-32768, 32767]`
(two's-complement overflow semantics of Go `int16` arithmetic). -/
def i16wrap (x : Int) : Int := (x + 32768) % 65536 - 32768

/-- Reinterpret an `int16` value as `uint16` (Go `uint16(value)`). -/
def toU16 (x : Int) : Nat := (x % 65536).toNat

/-- Go arithmetic right shift `w >> 8` on `int16`: floor division by 256,
written with exact truncating division on the multiple `w - w % 256`. -/
def sar8 (w : Int) : Int := (w - w % 256) / 256

/-- Go `func (v *I2C) ReadRegS16BE(reg byte) (int16, error)`:
write `[reg]`; read 2 bytes; `w := int16(buf[0])<<8 + int16(buf[1])`
(signed 16-bit arithmetic, hence the `i16wrap`s). -/
def ReadRegS16BE (d : Device) (reg : Nat) : Except IOError Int × List BusEvent :=
  match WriteBytes d [reg] with
  | (Except.error e, t1) => (Except.error e, t1)
  | (Except.ok _, t1) =>
    match ReadBytes d 2 with
    | (Except.error e, t2) => (Except.error e, t1 ++ t2)
    | (Except.ok (buf, _), t2) =>
      (Except.ok (i16wrap (i16wrap ((buf.getD 0 0 : Int) * 256) + (buf.getD 1 0 : Int))),
       t1 ++ t2)

/-- Byte exchange used by `ReadRegS16LE`: Go `w = (w&0xFF)<<8 + w>>8` on
`int16`.  `w & 0xFF` is the non-negative low byte (`w % 256` as `emod`);
`w >> 8` is an ARITHMETIC (sign-extending) shift, `sar8`. -/
def swapS16 (w : Int) : Int :=
  i16wrap (i16wrap ((w % 256) * 256) + sar8 w)

/-- Go `func (v *I2C) ReadRegS16LE(reg byte) (int16, error)`:
call `ReadRegS16BE`, then exchange bytes (signed arithmetic). -/
def ReadRegS16LE (d : Device) (reg : Nat) : Except IOError Int × List BusEvent :=
  match ReadRegS16BE d reg with
  | (Except.error e, t) => (Except.error e, t)
  | (Except.ok w, t) => (Except.ok (swapS16 w), t)

/-- Go `func (v *I2C) WriteRegU16BE(reg byte, value uint16) error`:
write the 3-byte buffer `[reg, byte((value & 0xFF00) >> 8), byte(value & 0xFF)]`. -/
def WriteRegU16BE (d : Device) (reg value : Nat) : Except IOError Unit × List BusEvent :=
  match WriteBytes d [reg, (value &&& 0xFF00) >>> 8, value &&& 0xFF] with
  | (Except.error e, t) => (Except.error e, t)
  | (Except.ok _, t) => (Except.ok (), t)

/-- Value computed by `WriteRegU16LE` before delegating:
Go `w := (value*0xFF00)>>8 + value<<8` on `uint16` — note the MULTIPLICATION
`value*0xFF00` (as written in the source), not a mask. -/
def wU16LE (value : Nat) : Nat :=
  (((value * 0xFF00) % 65536) >>> 8 + (value <<< 8) % 65536) % 65536

/-- Go `func (v *I2C) WriteRegU16LE(reg byte, value uint16) error`:
compute `w` and delegate to `WriteRegU16BE`. -/
def WriteRegU16LE (d : Device) (reg value : Nat) : Except IOError Unit × List BusEvent :=
  WriteRegU16BE d reg (wU16LE value)

/-- Go `func (v *I2C) WriteRegS16BE(reg byte, value int16) error`:
write `[reg, byte((uint16(value) & 0xFF00) >> 8), byte(value & 0xFF)]`. -/
def WriteRegS16BE (d : Device) (reg : Nat) (value : Int) :
    Except IOError Unit × List BusEvent :=
  match WriteBytes d [reg, (toU16 value &&& 0xFF00) >>> 8, toU16 value &&& 0xFF] with
  | (Except.error e, t) => (Except.error e, t)
  | (Except.ok _, t) => (Except.ok (), t)

/-- Value computed by `WriteRegS16LE` before delegating:
Go `w := int16((uint16(value)*0xFF00)>>8) + value<<8` — again a
MULTIPLICATION `uint16(value)*0xFF00`, with `int16` wrap on the sum. -/
def wS16LE (value : Int) : Int :=
  i16wrap (i16wrap ((((toU16 value * 0xFF00) % 65536) >>> 8 : Nat) : Int) +
    i16wrap (value * 256))

/-- Go `func (v *I2C) WriteRegS16LE(reg byte, value int16) error`:
compute `w` and delegate to `WriteRegS16BE`. -/
def WriteRegS16LE (d : Device) (reg : Nat) (value : Int) :
    Except IOError Unit × List BusEvent :=
  WriteRegS16BE d reg (wS16LE value)

/-- One OS-level action performed on the device node file. -/
inductive OSEvent where
  | openEv : Nat → OSEvent
  | ioctlEv : Nat → Nat → OSEvent
  | closeEv : OSEvent
deriving DecidableEq

/-- Oracle for the operating system: result of opening `/dev/i2c-<bus>`
(a file descriptor or an error), of an `ioctl(fd, cmd, arg)` request
(`some e` = failure), and of closing a descriptor. -/
structure OS where
  openFile : Nat → Except IOError Nat
  ioctlRes : Nat → Nat → Nat → Option IOError
  closeRes : Nat → Option IOError

/-- The I2C_SLAVE ioctl request number from the source. -/
def i2cSlave : Nat := 0x0703

/-- A constructed handle: holds the open file descriptor (`rc`). -/
structure I2CHandle where
  rc : Nat
deriving DecidableEq

/-- Go `func NewI2C(addr uint8, bus int) (*I2C, error)`:
open `/dev/i2c-<bus>`; on success issue `ioctl(f.Fd(), i2cSlave, addr)`;
on ioctl failure return the error (the source performs no `f.Close()` on
this path, so no `closeEv` is emitted). -/
def NewI2C (os : OS) (addr bus : Nat) : Except IOError I2CHandle × List OSEvent :=
  match os.openFile bus with
  | Except.error e => (Except.error e, [OSEvent.openEv bus])
  | Except.ok f =>
    match os.ioctlRes f i2cSlave addr with
    | some e => (Except.error e, [OSEvent.openEv bus, OSEvent.ioctlEv i2cSlave addr])
    | none => (Except.ok ⟨f⟩, [OSEvent.openEv bus, OSEvent.ioctlEv i2cSlave addr])

/-- Go `func (v *I2C) Close() error`: `v.rc.Close()`. -/
def Close (os : OS) (h : I2CHandle) : Except IOError Unit × List OSEvent :=
  (match os.closeRes h.rc with
   | some e => Except.error e
   | none => Except.ok (), [OSEvent.closeEv])

/-- Test double: every write succeeds returning the buffer length, every read
succeeds and fills the buffer with the fixed byte list `bytes`. -/
def devOK (bytes : List Nat) : Device where
  onWrite := fun buf => Except.ok buf.length
  onRead := fun n => Except.ok (bytes, n)

/-- Test double whose raw writes all fail with error `e`. -/
def devWriteFail (e : IOError) : Device where
  onWrite := fun _ => Except.error e
  onRead := fun n => Except.ok ([], n)

/-- Test double whose raw writes succeed but whose raw reads fail with `e`. -/
def devReadFail (e : IOError) : Device where
  onWrite := fun buf => Except.ok buf.length
  onRead := fun _ => Except.error e

/-- Test double OS: open succeeds with descriptor 3, the bind ioctl fails
with error `e`. -/
def osBindFail (e : IOError) : OS where
  openFile := fun _ => Except.ok 3
  ioctlRes := fun _ _ _ => some e
  closeRes := fun _ => none

/-- Specification-side reading of two wire bytes already combined into the
value `u = b0 * 256 + b1 < 65536`: the big-endian two's-complement signed
16-bit interpretation. -/
def twosComplement16 (u : Nat) : Int :=
  if u < 32768 then (u : Int) else (u : Int) - 65536

theorem and255_eq_mod (v : Nat) : v &&& 255 = v % 256 := by
  have h := Nat.and_pow_two_sub_one_eq_mod v 8
  norm_num at h
  exact h

theorem and_div_pow (k : Nat) : ∀ a b : Nat, (a &&& b) / 2 ^ k = a / 2 ^ k &&& b / 2 ^ k := by
  induction k with
  | zero => intro a b; simp
  | succ k ih =>
    intro a b
    rw [pow_succ, ← Nat.div_div_eq_div_mul, ← Nat.div_div_eq_div_mul,
      ← Nat.div_div_eq_div_mul, ih, Nat.and_div_two]

theorem andFF00_shr8 (v : Nat) : (v &&& 0xFF00) >>> 8 = v / 256 % 256 := by
  rw [Nat.shiftRight_eq_div_pow, and_div_pow 8 v 0xFF00]
  norm_num [and255_eq_mod]

theorem lor_byte (a b : Nat) (hb : b < 256) : (a <<< 8) ||| b = a * 256 + b := by
  rw [Nat.shiftLeft_eq]
  have h := (Nat.mul_add_lt_is_or (by simpa using hb : b < 2 ^ 8) a).symm
  calc a * 2 ^ 8 ||| b = 2 ^ 8 * a ||| b := by rw [Nat.mul_comm]
    _ = 2 ^ 8 * a + b := h
    _ = a * 256 + b := by ring

/-- Claim C1 (code bug).  The spec says the little-endian write helpers
byte-swap the value and delegate, producing the wire bytes
`[reg, low byte, high byte]`.  The source instead computes
`(value*0xFF00)>>8` — a multiplication where a mask `value&0xFF00` was
intended — so `WriteRegU16LE(0x20, 0x1234)` and `WriteRegS16LE(0x20, 0x1234)`
both put `[0x20, 0x34, 0xCC]` on the wire instead of `[0x20, 0x34, 0x12]`. -/
theorem writeRegU16LE_bug_eval :
    (WriteRegU16LE (devOK []) 0x20 0x1234).2 = [BusEvent.write [0x20, 0x34, 0xCC]] ∧
    (WriteRegS16LE (devOK []) 0x20 0x1234).2 = [BusEvent.write [0x20, 0x34, 0xCC]] ∧
    ([0x20, 0x34, 0xCC] : List Nat) ≠ [0x20, 0x34, 0x12] := by
  refine ⟨rfl, rfl, by decide⟩

/-- Claim C2 (code bug).  The spec says `ReadRegS16LE` byte-swaps the
big-endian value, returning the signed value with high byte `b1` and low
byte `b0`.  The source swap `(w&0xFF)<<8 + w>>8` uses an ARITHMETIC right
shift on `int16`, which sign-extends whenever `b0 >= 0x80`: on wire bytes
`[0x80, 0x00]` the code returns `-128` where the swap gives `128`, and on
`[0xFF, 0x00]` it returns `-1` where the swap gives `255`. -/
theorem readRegS16LE_bug_eval :
    (ReadRegS16LE (devOK [0x80, 0x00]) 0).1 = Except.ok (-128) ∧
    (ReadRegS16LE (devOK [0xFF, 0x00]) 0).1 = Except.ok (-1) ∧
    ((-128 : Int) ≠ 128 ∧ (-1 : Int) ≠ 255) := by
  refine ⟨rfl, rfl, by decide, by decide⟩

/-- Claim C3.  For every register `reg` and every requested count `n ≥ 0`,
when the raw write and raw read both succeed, `ReadRegBytes` issues exactly
one single-byte write `[reg]` followed by exactly one read request for `n`
bytes — no other bus traffic — and returns the read buffer with the count.
(Negative `n` panics before any read; that path is claim C10.) -/
theorem readRegBytes_protocol (d : Device) (reg n k : Nat) (buf : List Nat) (c : Nat)
    (hw : d.onWrite [reg] = Except.ok k)
    (hr : d.onRead n = Except.ok (buf, c)) :
    ReadRegBytes d reg (n : Int) =
      (Outcome.ok (buf, c), [BusEvent.write [reg], BusEvent.read n]) := by
  simp [ReadRegBytes, WriteBytes, ReadBytes, hw, hr]

/-- Witness for C3: a concrete device delivering bytes `[1, 2, 3]`. -/
theorem readRegBytes_protocol_witness :
    ReadRegBytes (devOK [1, 2, 3]) 7 ((3 : Nat) : Int) =
      (Outcome.ok ([1, 2, 3], 3), [BusEvent.write [7], BusEvent.read 3]) :=
  readRegBytes_protocol (devOK [1, 2, 3]) 7 3 1 [1, 2, 3] 3 rfl rfl

/-- Claim C4.  For any pair of wire bytes `[b0, b1]` supplied by the device,
`ReadRegU16BE` returns `b0 <<< 8 ||| b1` and `ReadRegU16LE` returns the
byte-swapped `b1 <<< 8 ||| b0` (so bytes `[0x12, 0x34]` give `0x1234` and
`0x3412` respectively — see the witness). -/
theorem readRegU16_endianness (d : Device) (reg b0 b1 k : Nat)
    (h0 : b0 < 256) (h1 : b1 < 256)
    (hw : d.onWrite [reg] = Except.ok k)
    (hr : d.onRead 2 = Except.ok ([b0, b1], 2)) :
    (ReadRegU16BE d reg).1 = Except.ok ((b0 <<< 8) ||| b1) ∧
    (ReadRegU16LE d reg).1 = Except.ok ((b1 <<< 8) ||| b0) := by
  have h28 : (2 : Nat) ^ 8 = 256 := by norm_num
  have hbe : ReadRegU16BE d reg =
      (Except.ok (b0 * 256 + b1), [BusEvent.write [reg], BusEvent.read 2]) := by
    simp only [ReadRegU16BE, WriteBytes, ReadBytes, hw, hr, List.getD_cons_zero,
      List.getD_cons_succ, Prod.mk.injEq, List.cons.injEq, and_true, true_and,
      List.singleton_append, Except.ok.injEq]
    rw [Nat.shiftLeft_eq, h28]
    omega
  have hs : swapU16 (b0 * 256 + b1) = b1 * 256 + b0 := by
    unfold swapU16
    simp only [and255_eq_mod, Nat.shiftLeft_eq, Nat.shiftRight_eq_div_pow, h28]
    have e1 : (b0 * 256 + b1) % 256 = b1 := by omega
    have e2 : (b0 * 256 + b1) / 256 = b0 := by omega
    rw [e1, e2]
    omega
  constructor
  · rw [hbe, lor_byte _ _ h1]
  · rw [lor_byte _ _ h0]
    simp only [ReadRegU16LE, hbe, hs]

/-- Witness for C4: the spec's concrete bytes `[0x12, 0x34]`. -/
theorem readRegU16_endianness_witness :
    (ReadRegU16BE (devOK [0x12, 0x34]) 5).1 = Except.ok 0x1234 ∧
    (ReadRegU16LE (devOK [0x12, 0x34]) 5).1 = Except.ok 0x3412 := by
  have h := readRegU16_endianness (devOK [0x12, 0x34]) 5 0x12 0x34 1
    (by decide) (by decide) rfl rfl
  exact ⟨h.1.trans (congrArg Except.ok (by decide)),
    h.2.trans (congrArg Except.ok (by decide))⟩

/-- Claim C5.  For any wire bytes `[b0, b1]`, `ReadRegS16BE` returns their
big-endian two's-complement signed 16-bit interpretation (so `[0xFF, 0xFF]`
gives `-1` and `[0x00, 0x01]` gives `1` — see the witness). -/
theorem readRegS16BE_twos_complement (d : Device) (reg b0 b1 k : Nat)
    (h0 : b0 < 256) (h1 : b1 < 256)
    (hw : d.onWrite [reg] = Except.ok k)
    (hr : d.onRead 2 = Except.ok ([b0, b1], 2)) :
    (ReadRegS16BE d reg).1 = Except.ok (twosComplement16 (b0 * 256 + b1)) := by
  simp only [ReadRegS16BE, WriteBytes, ReadBytes, hw, hr, List.getD_cons_zero,
    List.getD_cons_succ, Except.ok.injEq]
  unfold i16wrap twosComplement16
  split <;> push_cast <;> omega

/-- Witness for C5: the spec's concrete bytes `[0xFF, 0xFF]` and `[0x00, 0x01]`. -/
theorem readRegS16BE_twos_complement_witness :
    (ReadRegS16BE (devOK [0xFF, 0xFF]) 0).1 = Except.ok (-1) ∧
    (ReadRegS16BE (devOK [0x00, 0x01]) 0).1 = Except.ok 1 := by
  have hA := readRegS16BE_twos_complement (devOK [0xFF, 0xFF]) 0 0xFF 0xFF 1
    (by decide) (by decide) rfl rfl
  have hB := readRegS16BE_twos_complement (devOK [0x00, 0x01]) 0 0x00 0x01 1
    (by decide) (by decide) rfl rfl
  refine ⟨hA.trans (congrArg Except.ok ?_), hB.trans (congrArg Except.ok ?_)⟩ <;>
    norm_num [twosComplement16]

/-- Claim C6.  `WriteRegU8 reg value` puts exactly the buffer `[reg, value]`
on the wire, and `WriteRegU16BE reg v` puts exactly `[reg, high, low]` where
`high = v / 256 % 256` and `low = v % 256`; in particular
`WriteRegU8 0x10 0xAB` writes `[0x10, 0xAB]` and `WriteRegU16BE 0x20 0x1234`
writes `[0x20, 0x12, 0x34]`. -/
theorem writeReg_wire_format (d : Device) (reg value v : Nat) :
    (WriteRegU8 d reg value).2 = [BusEvent.write [reg, value]] ∧
    (WriteRegU16BE d reg v).2 = [BusEvent.write [reg, v / 256 % 256, v % 256]] ∧
    (WriteRegU8 d 0x10 0xAB).2 = [BusEvent.write [0x10, 0xAB]] ∧
    (WriteRegU16BE d 0x20 0x1234).2 = [BusEvent.write [0x20, 0x12, 0x34]] := by
  have hu8 : ∀ r x : Nat, (WriteRegU8 d r x).2 = [BusEvent.write [r, x]] := by
    intro r x
    unfold WriteRegU8 WriteBytes
    cases hh : d.onWrite [r, x] <;> simp [hh]
  have hu16 : ∀ r x : Nat,
      (WriteRegU16BE d r x).2 = [BusEvent.write [r, x / 256 % 256, x % 256]] := by
    intro r x
    unfold WriteRegU16BE WriteBytes
    rw [andFF00_shr8, and255_eq_mod]
    cases hh : d.onWrite [r, x / 256 % 256, x % 256] <;> simp [hh]
  refine ⟨hu8 reg value, hu16 reg v, hu8 0x10 0xAB, (hu16 0x20 0x1234).trans ?_⟩
  norm_num

/-- Claim C7.  The byte exchange used by `ReadRegU16LE` is an involution on
16-bit values: `swapU16 (swapU16 w) = w` for every `w < 65536`. -/
theorem swapU16_involutive (w : Nat) (h : w < 65536) : swapU16 (swapU16 w) = w := by
  have h28 : (2 : Nat) ^ 8 = 256 := by norm_num
  unfold swapU16
  simp only [and255_eq_mod, Nat.shiftLeft_eq, Nat.shiftRight_eq_div_pow, h28]
  have h1 : w % 256 * 256 % 65536 = w % 256 * 256 := by omega
  rw [h1]
  have hin : (w % 256 * 256 + w / 256) % 65536 = w % 256 * 256 + w / 256 := by omega
  rw [hin]
  have h2 : (w % 256 * 256 + w / 256) % 256 = w / 256 := by omega
  have h3 : (w % 256 * 256 + w / 256) / 256 = w % 256 := by omega
  rw [h2, h3]
  omega

/-- Witness for C7 at the value `0x1234`. -/
theorem swapU16_involutive_witness :
    0x1234 < 65536 ∧ swapU16 (swapU16 0x1234) = 0x1234 :=
  ⟨by decide, swapU16_involutive 0x1234 (by decide)⟩

/-- Claim C8.  Error propagation: when the underlying raw write fails with
`e`, every register operation returns exactly `e` after a single attempt;
when the raw write succeeds and the raw read fails with `e`, every register
read returns exactly `e`; and an error result is distinguishable from any
success result. -/
theorem error_propagation (d : Device) (reg vU8 v16 : Nat) (vS : Int) (n : Int)
    (hn : 0 ≤ n) (e : IOError) :
    ((∀ buf, d.onWrite buf = Except.error e) →
      (ReadRegBytes d reg n).1 = Outcome.err e ∧
      (ReadRegBytes d reg n).2 = [BusEvent.write [reg]] ∧
      (ReadRegU8 d reg).1 = Except.error e ∧
      (ReadRegU16BE d reg).1 = Except.error e ∧
      (ReadRegU16LE d reg).1 = Except.error e ∧
      (ReadRegS16BE d reg).1 = Except.error e ∧
      (ReadRegS16LE d reg).1 = Except.error e ∧
      (WriteRegU8 d reg vU8).1 = Except.error e ∧
      (WriteRegU16BE d reg v16).1 = Except.error e ∧
      (WriteRegU16LE d reg v16).1 = Except.error e ∧
      (WriteRegS16BE d reg vS).1 = Except.error e ∧
      (WriteRegS16LE d reg vS).1 = Except.error e) ∧
    ((∀ buf, ∃ k, d.onWrite buf = Except.ok k) →
      (∀ m, d.onRead m = Except.error e) →
      (ReadRegBytes d reg n).1 = Outcome.err e ∧
      (ReadRegBytes d reg n).2 = [BusEvent.write [reg], BusEvent.read n.toNat] ∧
      (ReadRegU8 d reg).1 = Except.error e ∧
      (ReadRegU16BE d reg).1 = Except.error e ∧
      (ReadRegU16LE d reg).1 = Except.error e ∧
      (ReadRegS16BE d reg).1 = Except.error e ∧
      (ReadRegS16LE d reg).1 = Except.error e) ∧
    (∀ x : List Nat × Nat, Outcome.err e ≠ Outcome.ok x) ∧
    (∀ y : Nat, (Except.error e : Except IOError Nat) ≠ Except.ok y) := by
  refine ⟨fun hw => ?_, fun hwok hre => ?_, fun x => by simp, fun y => by simp⟩
  · simp [ReadRegBytes, ReadRegU8, ReadRegU16BE, ReadRegU16LE, ReadRegS16BE,
      ReadRegS16LE, WriteRegU8, WriteRegU16BE, WriteRegU16LE, WriteRegS16BE,
      WriteRegS16LE, WriteBytes, ReadBytes, hw]
  · obtain ⟨k, hk⟩ := hwok [reg]
    have hnneg : ¬ n < 0 := not_lt.mpr hn
    simp [ReadRegBytes, ReadRegU8, ReadRegU16BE, ReadRegU16LE, ReadRegS16BE,
      ReadRegS16LE, WriteBytes, ReadBytes, hk, hre, hnneg]

/-- Witness for C8: concrete failing devices for the write path and the
read path. -/
theorem error_propagation_witness :
    (ReadRegBytes (devWriteFail 7) 5 2).1 = Outcome.err 7 ∧
    (ReadRegU8 (devReadFail 9) 5).1 = Except.error 9 := by
  have hA := error_propagation (devWriteFail 7) 5 1 2 3 2 (by decide) 7
  have hB := error_propagation (devReadFail 9) 5 1 2 3 2 (by decide) 9
  exact ⟨(hA.1 (fun buf => rfl)).1,
    (hB.2.1 (fun buf => ⟨buf.length, rfl⟩) (fun m => rfl)).2.2.1⟩

/-- Claim C9.  When opening the device node succeeds but the bind ioctl
fails, `NewI2C` returns the ioctl error and never closes the descriptor it
just opened: the trace holds the open and the ioctl, and no close event. -/
theorem newI2C_bind_failure_leaves_open (os : OS) (addr bus f : Nat) (e : IOError)
    (ho : os.openFile bus = Except.ok f)
    (hi : os.ioctlRes f i2cSlave addr = some e) :
    (NewI2C os addr bus).1 = Except.error e ∧
    (NewI2C os addr bus).2 = [OSEvent.openEv bus, OSEvent.ioctlEv i2cSlave addr] ∧
    OSEvent.closeEv ∉ (NewI2C os addr bus).2 := by
  simp [NewI2C, ho, hi]

/-- Witness for C9: an OS double whose bind ioctl fails with error 4. -/
theorem newI2C_bind_failure_leaves_open_witness :
    (NewI2C (osBindFail 4) 0x48 1).1 = Except.error 4 ∧
    (NewI2C (osBindFail 4) 0x48 1).2 = [OSEvent.openEv 1, OSEvent.ioctlEv i2cSlave 0x48] ∧
    OSEvent.closeEv ∉ (NewI2C (osBindFail 4) 0x48 1).2 :=
  newI2C_bind_failure_leaves_open (osBindFail 4) 0x48 1 3 4 rfl rfl

/-- Claim C10.  For every negative count `n`, once the register-selector
write has succeeded, `ReadRegBytes` panics (`make([]byte, n)` with `n < 0`)
instead of returning a result: the trace shows the single write and no read. -/
theorem readRegBytes_negative_panics (d : Device) (reg : Nat) (n : Int) (k : Nat)
    (hn : n < 0) (hw : d.onWrite [reg] = Except.ok k) :
    ReadRegBytes d reg n = (Outcome.panic, [BusEvent.write [reg]]) := by
  simp [ReadRegBytes, WriteBytes, hw, hn]

/-- Witness for C10 at `n = -1`. -/
theorem readRegBytes_negative_panics_witness :
    ReadRegBytes (devOK []) 5 (-1) = (Outcome.panic, [BusEvent.write [5]]) :=
  readRegBytes_negative_panics (devOK []) 5 (-1) 1 (by decide) rfl
